import Mathlib

/-!
# Flappy Bird (src/app.js): state machine, spawner and per-tick update

A shallow embedding of the game logic of `src/app.js`.  The module-level
variables of the script (`score`, `gameStarted`, `gameOver`, `bird`, `pipes`)
and the scene fields it uses (`this.pipeTimer`, the scene clock, the zones of
the display list, the two text objects) are gathered in one `State` record, and
every function of the script becomes a function on `State`.

JavaScript numbers are modelled as exact rationals for coordinates, velocities
and angles.  The number `score` holds an integer; its increment `score += 1` is
the exact sum rounded to a double (`jsAdd`), which is exact below `2 ^ 53`.  The two values the script obtains
from its environment are passed in as arguments: the integer returned by
`Phaser.Math.Between(170, 420)` (`gapCenter`) and the value of
`Math.sin(this.time.now / 220)` (`sinNow`).

Object identity of timers and of spawned pairs is represented by numbers taken
from the counter `nextId`.
-/

namespace FlappyBird

/-! ## Constants (app.js lines 3-14) -/

def GAME_W : ℚ := 800

def GAME_H : ℚ := 600

def PIPE_SPEED : ℚ := 220

def PIPE_GAP : ℚ := 170

def PIPE_SPAWN_MS : ℕ := 1400

/-! ## Data model -/

/-- The bird sprite: position, body velocity, angle, the `allowGravity` flag of
its body, and its tint (`none` once `clearTint` has run). -/
structure Bird where
  x : ℚ
  y : ℚ
  velocityX : ℚ
  velocityY : ℚ
  angle : ℚ
  allowGravity : Bool
  tint : Option ℕ
  deriving DecidableEq

/-- The arcade physics body of a pipe. -/
structure Body where
  velocityX : ℚ
  allowGravity : Bool
  immovable : Bool
  deriving DecidableEq

/-- A member of the `pipes` group.  `pair` identifies the call of
`spawnPipePair` that created it; `originY = 1` anchors the sprite by its bottom
edge and `originY = 0` by its top edge. -/
structure Pipe where
  pair : ℕ
  x : ℚ
  y : ℚ
  originX : ℚ
  originY : ℚ
  flipY : Bool
  body : Option Body
  deriving DecidableEq

/-- An invisible score zone of the scene, with the velocity of its body. -/
structure Zone where
  pair : ℕ
  x : ℚ
  y : ℚ
  width : ℚ
  height : ℚ
  allowGravity : Bool
  velocityX : ℚ
  deriving DecidableEq

/-- A timer event held by the scene clock; its callback is always
`spawnPipePair`, the only callback the script registers. -/
structure TimerEvent where
  id : ℕ
  delay : ℕ
  loop : Bool
  deriving DecidableEq

/-- The whole mutable state of the script. -/
structure State where
  score : ℤ
  gameStarted : Bool
  gameOver : Bool
  bird : Bird
  pipes : List Pipe
  zones : List Zone
  clock : List TimerEvent
  pipeTimer : Option ℕ
  scoreText : String
  messageText : String
  messageVisible : Bool
  nextId : ℕ
  deriving DecidableEq

/-- A DOM keyboard event as seen by `handleSpaceKey`; `autoRepeat` is the
`repeat` flag the browser sets on key-down events generated while the key is
held. -/
structure KeyEvent where
  code : String
  keyCode : ℕ
  autoRepeat : Bool
  deriving DecidableEq

/-- The horizontal velocity of a pipe: that of its body, and zero for a pipe
without a body, which the physics engine does not move. -/
def Pipe.velocityX (p : Pipe) : ℚ :=
  match p.body with
  | some b => b.velocityX
  | none => 0

/-- The state at the end of `create` (app.js lines 38-115). -/
def initial : State where
  score := 0
  gameStarted := false
  gameOver := false
  bird :=
    { x := 160, y := 220, velocityX := 0, velocityY := 0, angle := 0
      allowGravity := false, tint := none }
  pipes := []
  zones := []
  clock := []
  pipeTimer := none
  scoreText := "Score: 0"
  messageText := "Click to start\nSPACE to flap"
  messageVisible := true
  nextId := 0

/-! ## The functions of the script -/

/-- The top pipe created by `spawnPipePair` (app.js lines 156-161). -/
def topPipe (pair : ℕ) (gapCenter : ℤ) : Pipe where
  pair := pair
  x := GAME_W + 80
  y := (gapCenter : ℚ) - PIPE_GAP / 2
  originX := 1 / 2
  originY := 1
  flipY := true
  body := some { velocityX := -PIPE_SPEED, allowGravity := false, immovable := true }

/-- The bottom pipe created by `spawnPipePair` (app.js lines 164-168). -/
def bottomPipe (pair : ℕ) (gapCenter : ℤ) : Pipe where
  pair := pair
  x := GAME_W + 80
  y := (gapCenter : ℚ) + PIPE_GAP / 2
  originX := 1 / 2
  originY := 0
  flipY := false
  body := some { velocityX := -PIPE_SPEED, allowGravity := false, immovable := true }

/-- The score zone created by `spawnPipePair` (app.js lines 171-174). -/
def scoreZone (pair : ℕ) : Zone where
  pair := pair
  x := GAME_W + 80 + 30
  y := GAME_H / 2
  width := 10
  height := GAME_H
  allowGravity := false
  velocityX := -PIPE_SPEED

/-- `spawnPipePair` (app.js lines 146-181); `gapCenter` is the value returned
by `Phaser.Math.Between(170, 420)`. -/
def spawnPipePair (gapCenter : ℤ) (s : State) : State :=
  if s.gameOver then s
  else
    { s with
      pipes := s.pipes ++ [topPipe s.nextId gapCenter, bottomPipe s.nextId gapCenter]
      zones := s.zones ++ [scoreZone s.nextId]
      nextId := s.nextId + 1 }

/-- `startGame` (app.js lines 117-140). -/
def startGame (gapCenter : ℤ) (s : State) : State :=
  if s.gameStarted then s
  else
    spawnPipePair gapCenter
      { s with
        gameStarted := true
        gameOver := false
        score := 0
        scoreText := "Score: 0"
        messageVisible := false
        bird :=
          { s.bird with
            tint := none, angle := 0, velocityX := 0, velocityY := 0
            allowGravity := true }
        clock := s.clock ++ [{ id := s.nextId, delay := PIPE_SPAWN_MS, loop := true }]
        pipeTimer := some s.nextId
        nextId := s.nextId + 1 }

/-- `flap` (app.js lines 142-144). -/
def flap (s : State) : State :=
  { s with bird := { s.bird with velocityY := -320 } }

/-- The callback of `forEach` in `endGame`: `p.body && p.body.setVelocityX(0)`. -/
def freezePipe (p : Pipe) : Pipe :=
  match p.body with
  | some b => { p with body := some { b with velocityX := 0 } }
  | none => p

/-- The effect of `this.pipeTimer.remove(false)` guarded by
`if (this.pipeTimer)`: the timer the handle refers to leaves the clock. -/
def removePipeTimer (s : State) : List TimerEvent :=
  match s.pipeTimer with
  | some h => s.clock.filter (fun t => decide (t.id ≠ h))
  | none => s.clock

/-- `endGame` (app.js lines 183-195). -/
def endGame (s : State) : State :=
  if s.gameOver then s
  else
    { s with
      gameOver := true
      bird := { s.bird with tint := some 0xff4444, velocityX := 0, velocityY := 0 }
      pipes := s.pipes.map freezePipe
      clock := removePipeTimer s
      messageText := "Game Over!\nClick to restart"
      messageVisible := true }

/-- `restart` (app.js lines 197-217). -/
def restart (s : State) : State :=
  { s with
    pipes := []
    zones := []
    bird :=
      { s.bird with
        tint := none, x := 160, y := 220, velocityX := 0, velocityY := 0
        angle := 0, allowGravity := false }
    gameStarted := false
    gameOver := false
    score := 0
    scoreText := "Score: 0"
    messageText := "Click to start\nSPACE to flap"
    messageVisible := true }

/-- `Phaser.Math.Clamp(v, lo, hi)`, which is `Math.max(lo, Math.min(hi, v))`. -/
def clamp (v lo hi : ℚ) : ℚ := max lo (min hi v)

/-- The loop `pipes.getChildren().forEach((p) => { if (p.x < -120) p.destroy(); })`
of `update` (app.js lines 239-241).

`getChildren` returns the array in which the group keeps its members, not a
copy, and `destroy` on a member makes the group remove it from that array at
once.  `Array.prototype.forEach` reads the length once (`n` counts the indices
still to visit), visits the indices in order (`k`), and calls the callback only
at an index the array still has.  The element visited at index `k` is the one
destroyed, so it is removed at index `k`. -/
def destroyOffscreen : ℕ → ℕ → List Pipe → List Pipe
  | 0, _, arr => arr
  | n + 1, k, arr =>
    match arr.get? k with
    | none => destroyOffscreen n (k + 1) arr
    | some p =>
      if p.x < -120 then destroyOffscreen n (k + 1) (arr.eraseIdx k)
      else destroyOffscreen n (k + 1) arr

/-- `update` (app.js lines 219-242).  `justDown` is the value of
`spaceKey && Phaser.Input.Keyboard.JustDown(spaceKey)` and `sinNow` the value
of `Math.sin(this.time.now / 220)`. -/
def update (justDown : Bool) (sinNow : ℚ) (gapCenter : ℤ) (s : State) : State :=
  if !s.gameStarted then
    let s1 := { s with bird := { s.bird with y := s.bird.y + sinNow * (15 / 100) } }
    if justDown then startGame gapCenter s1 else s1
  else if s.gameOver then s
  else
    let s1 := if justDown then flap s else s
    { s1 with
      bird := { s1.bird with angle := clamp (s1.bird.velocityY / 8) (-25) 50 }
      pipes := destroyOffscreen s1.pipes.length 0 s1.pipes }

/-- `handleSpaceKey`, the window key-down listener (app.js lines 91-101). -/
def handleSpaceKey (e : KeyEvent) (gapCenter : ℤ) (s : State) : State :=
  if e.code = "Space" ∨ e.keyCode = 32 then
    if !s.gameStarted then startGame gapCenter s
    else if !s.gameOver then flap s
    else s
  else s

/-- The `pointerdown` handler (app.js lines 106-114). -/
def pointerdown (gapCenter : ℤ) (s : State) : State :=
  if !s.gameStarted then startGame gapCenter s
  else if s.gameOver then restart s
  else s

/-- The double nearest to the natural number `a`, ties going to the even
significand (IEEE 754 round-to-nearest-even): every `a` up to `2 ^ 53` is a
double; for `2 ^ e ≤ a < 2 ^ (e + 1)` with `e ≥ 53` the doubles are the
multiples of `2 ^ (e - 52)`.  (Numbers from `2 ^ 1024` on, which a double holds
as `Infinity`, are outside this model.) -/
def roundNat (a : ℕ) : ℕ :=
  if Nat.log 2 a ≤ 52 then a
  else
    let u := 2 ^ (Nat.log 2 a - 52)
    let q := a / u
    let r := a % u
    if 2 * r < u then q * u
    else if u < 2 * r then (q + 1) * u
    else if q % 2 = 0 then q * u
    else (q + 1) * u

/-- The double nearest to the integer `m`; rounding is symmetric in the sign. -/
def roundDouble (m : ℤ) : ℤ := m.sign * (roundNat m.natAbs : ℤ)

/-- The sum `a + b` of two JavaScript numbers that hold integers: the exact sum
rounded to a double.  In particular `2 ^ 53 + 1` gives `2 ^ 53`. -/
def jsAdd (a b : ℤ) : ℤ := roundDouble (a + b)

/-- The overlap callback registered for one score zone (app.js lines 176-180):
`score += 1` on the JavaScript number `score`, refresh the readout, destroy the
zone. -/
def zoneHandler (pair : ℕ) (s : State) : State :=
  { s with
    score := jsAdd s.score 1
    scoreText := "Score: " ++ toString (jsAdd s.score 1)
    zones := s.zones.filter (fun z => decide (z.pair ≠ pair)) }

/-! ## The engine around the script

The events through which the engine and the browser drive the script.  The
engine reports an overlap only for a zone that still exists, runs a timer
callback only for a timer still held by the clock, and reports a bird-pipe
overlap only when the group has a member. -/

/-- Is the zone of pair `pair` still in the scene? -/
def zoneLive (pair : ℕ) (s : State) : Bool :=
  s.zones.any (fun z => decide (z.pair = pair))

/-- Is the timer `id` still held by the clock? -/
def timerActive (id : ℕ) (s : State) : Bool :=
  s.clock.any (fun t => decide (t.id = id))

/-- The bird-zone overlap of one physics step: the callback runs when the zone
is live. -/
def overlapZone (pair : ℕ) (s : State) : State :=
  if zoneLive pair s then zoneHandler pair s else s

/-- One expiry of a timer of the clock: its callback `spawnPipePair` runs when
the timer is still active. -/
def timerCallback (id : ℕ) (gapCenter : ℤ) (s : State) : State :=
  if timerActive id s then spawnPipePair gapCenter s else s

/-- One integration step of the arcade physics over `dt` seconds: a pipe with a
body and every zone advance by their velocity, which stays as it is (no
gravity, no drag); the position and vertical velocity of the bird are what the
engine computes from gravity, the world bounds and the ground (`birdY`,
`birdVY`). -/
def physicsStep (dt birdY birdVY : ℚ) (s : State) : State :=
  { s with
    bird := { s.bird with y := birdY, velocityY := birdVY }
    pipes := s.pipes.map (fun p => { p with x := p.x + p.velocityX * dt })
    zones := s.zones.map (fun z => { z with x := z.x + z.velocityX * dt }) }

/-- The events of a session. -/
inductive Event where
  | keyDown (e : KeyEvent) (gapCenter : ℤ)
  | pointerDown (gapCenter : ℤ)
  | tick (justDown : Bool) (sinNow : ℚ) (gapCenter : ℤ)
  | timer (id : ℕ) (gapCenter : ℤ)
  | groundCollision
  | pipeOverlap
  | zoneOverlap (pair : ℕ)
  | physics (dt birdY birdVY : ℚ)

/-- The reaction of the script to one event. -/
def step (ev : Event) (s : State) : State :=
  match ev with
  | .keyDown e g => handleSpaceKey e g s
  | .pointerDown g => pointerdown g s
  | .tick j sn g => update j sn g s
  | .timer id g => timerCallback id g s
  | .groundCollision => endGame s
  | .pipeOverlap => if s.pipes.isEmpty then s else endGame s
  | .zoneOverlap pair => overlapZone pair s
  | .physics dt y vy => physicsStep dt y vy s

/-- Run a list of events, first event first. -/
def run (evs : List Event) (s : State) : State :=
  evs.foldl (fun acc ev => step ev acc) s

/-- The states a session can be in: `initial` and everything reached from it by
events. -/
inductive Reachable : State → Prop where
  | init : Reachable initial
  | next (ev : Event) (s : State) : Reachable s → Reachable (step ev s)

/-- The three phases of the game. -/
inductive Phase where
  | Idle
  | Playing
  | GameOver
  deriving DecidableEq

/-- The phase of a state, read from `gameStarted` and `gameOver` in the order in
which every handler of the script tests them: `!gameStarted` first, then
`gameOver`. -/
def phase (s : State) : Phase :=
  if !s.gameStarted then Phase.Idle
  else if s.gameOver then Phase.GameOver
  else Phase.Playing

/-- The successor of a phase in the cycle Idle, Playing, GameOver, Idle. -/
def Phase.succ : Phase → Phase
  | .Idle => .Playing
  | .Playing => .GameOver
  | .GameOver => .Idle

/-! ## Invariants of a session -/

/-- The invariant of a session: the score is never negative; while
`gameStarted` is false the score is 0 and there is no zone, no pipe and no
active timer; after `endGame` no timer is active; and the only timer the clock
can hold is the one `pipeTimer` refers to. -/
structure Inv (s : State) : Prop where
  score_nonneg : 0 ≤ s.score
  idle : s.gameStarted = false → s.score = 0 ∧ s.zones = [] ∧ s.clock = [] ∧ s.pipes = []
  over : s.gameOver = true → s.clock = []
  handle : ∀ t ∈ s.clock, s.pipeTimer = some t.id

/-- As long as `gameOver` is false every pipe and every zone moves at
`-PIPE_SPEED`. -/
def Scrolling (s : State) : Prop :=
  s.gameOver = false →
    (∀ p ∈ s.pipes, p.velocityX = -220) ∧ (∀ z ∈ s.zones, z.velocityX = -220)

/-! ## Sessions used below -/

/-- A key-down event of the space bar; `autoRepeat` tells whether the browser
generated it for a key that is being held. -/
def spaceDown (autoRepeat : Bool) : KeyEvent :=
  { code := "Space", keyCode := 32, autoRepeat := autoRepeat }

/-- A session in which the game is started by a click and the bird then hits
the ground. -/
def crashedSession : State :=
  run [Event.pointerDown 300, Event.groundCollision] initial

/-- A session in which the game is started by a click, the space bar is pressed
once (the bird flaps), and the physics runs for 10 ms, after which gravity
(900 px/s²) has brought the vertical velocity from -320 to -311. -/
def heldKeySession : State :=
  run [Event.pointerDown 300, Event.keyDown (spaceDown false) 300,
    Event.physics (1 / 100) (21689 / 100) (-311)] initial

/-- A session in which the game is started by a click and the first pair of
pipes has travelled for 5 seconds at -220 px/s, from x = 880 to x = -220, past
the threshold -120, the bird being kept in the air at height 220. -/
def offscreenSession : State :=
  run [Event.pointerDown 300, Event.physics 5 220 0] initial

/-- The state that follows the start of a game, with the score at `2 ^ 53`, the
largest value the score can count to. -/
def saturatedSession : State :=
  { startGame 300 initial with score := 2 ^ 53 }

/-! ## Auxiliary facts -/

theorem spawnPipePair_flags (g : ℤ) (s : State) :
    (spawnPipePair g s).gameStarted = s.gameStarted ∧
    (spawnPipePair g s).gameOver = s.gameOver ∧
    (spawnPipePair g s).score = s.score ∧
    (spawnPipePair g s).clock = s.clock ∧
    (spawnPipePair g s).pipeTimer = s.pipeTimer ∧
    (spawnPipePair g s).bird = s.bird := by
  unfold spawnPipePair
  split <;> simp

theorem phase_idle_iff (s : State) : phase s = Phase.Idle ↔ s.gameStarted = false := by
  unfold phase
  cases s.gameStarted <;> cases s.gameOver <;> simp

theorem phase_playing_iff (s : State) :
    phase s = Phase.Playing ↔ s.gameStarted = true ∧ s.gameOver = false := by
  unfold phase
  cases s.gameStarted <;> cases s.gameOver <;> simp

theorem phase_gameOver_iff (s : State) :
    phase s = Phase.GameOver ↔ s.gameStarted = true ∧ s.gameOver = true := by
  unfold phase
  cases s.gameStarted <;> cases s.gameOver <;> simp

/-- What `startGame` leaves behind when it runs its body. -/
theorem startGame_of_not_started (g : ℤ) (s : State) (h : s.gameStarted = false) :
    (startGame g s).gameStarted = true ∧
    (startGame g s).gameOver = false ∧
    (startGame g s).score = 0 ∧
    (startGame g s).pipeTimer = some s.nextId ∧
    (startGame g s).clock = s.clock ++ [{ id := s.nextId, delay := 1400, loop := true }] := by
  simp [startGame, spawnPipePair, h, PIPE_SPAWN_MS]

/-! ## Arithmetic of the score -/

theorem roundNat_two_pow : roundNat (2 ^ 53) = 2 ^ 53 := by
  have hlog : Nat.log 2 (2 ^ 53) = 53 := Nat.log_pow (by norm_num) 53
  have hd : (2 : ℕ) ^ 53 / 2 = 2 ^ 52 := by norm_num
  have hm : (2 : ℕ) ^ 53 % 2 = 0 := by norm_num
  have hq : (2 : ℕ) ^ 52 * 2 = 2 ^ 53 := by norm_num
  unfold roundNat
  rw [hlog]
  simp only [show ¬ (53 ≤ 52) by omega, if_false, show 53 - 52 = 1 by rfl, pow_one, hd, hm,
    hq, mul_zero, show (0 : ℕ) < 2 by omega, if_true]

/-- Every natural number up to `2 ^ 53` is a double. -/
theorem roundNat_of_le (a : ℕ) (h : a ≤ 2 ^ 53) : roundNat a = a := by
  rcases Nat.lt_or_eq_of_le h with hlt | heq
  · have hl : Nat.log 2 a ≤ 52 := by
      by_cases ha : a = 0
      · simp [ha]
      · exact Nat.lt_succ_iff.1 (Nat.log_lt_of_lt_pow ha hlt)
    unfold roundNat
    rw [if_pos hl]
  · rw [heq]
    exact roundNat_two_pow

/-- The number `2 ^ 53 + 1` is not a double: it lies halfway between `2 ^ 53`
and `2 ^ 53 + 2` and rounds to `2 ^ 53`. -/
theorem roundNat_two_pow_succ : roundNat (2 ^ 53 + 1) = 2 ^ 53 := by
  have hlog : Nat.log 2 (2 ^ 53 + 1) = 53 :=
    Nat.log_eq_of_pow_le_of_lt_pow (by norm_num) (by norm_num)
  have hd : ((2 : ℕ) ^ 53 + 1) / 2 = 2 ^ 52 := by norm_num
  have hm : ((2 : ℕ) ^ 53 + 1) % 2 = 1 := by norm_num
  have hq : (2 : ℕ) ^ 52 * 2 = 2 ^ 53 := by norm_num
  have he : (2 : ℕ) ^ 52 % 2 = 0 := by norm_num
  unfold roundNat
  rw [hlog]
  simp only [show ¬ (53 ≤ 52) by omega, if_false, show 53 - 52 = 1 by rfl, pow_one, hd, hm,
    hq, he, mul_one, lt_irrefl, if_true]

theorem roundDouble_of_natAbs_le (m : ℤ) (h : m.natAbs ≤ 2 ^ 53) : roundDouble m = m := by
  unfold roundDouble
  rw [roundNat_of_le _ h]
  exact Int.sign_mul_natAbs m

theorem roundDouble_nonneg (m : ℤ) (h : 0 ≤ m) : 0 ≤ roundDouble m := by
  unfold roundDouble
  exact mul_nonneg (Int.sign_nonneg.2 h) (Int.ofNat_nonneg _)

/-- Below `2 ^ 53` the increment of the score is exact. -/
theorem jsAdd_one_exact (n : ℤ) (hlo : -(2 ^ 53) ≤ n) (hhi : n < 2 ^ 53) :
    jsAdd n 1 = n + 1 := by
  unfold jsAdd
  apply roundDouble_of_natAbs_le
  omega

/-- At `2 ^ 53` the increment of the score is lost. -/
theorem jsAdd_one_saturated : jsAdd (2 ^ 53) 1 = 2 ^ 53 := by
  unfold jsAdd roundDouble
  have h1 : ((2 : ℤ) ^ 53 + 1).natAbs = 2 ^ 53 + 1 := by norm_num
  have h2 : ((2 : ℤ) ^ 53 + 1).sign = 1 := Int.sign_eq_one_of_pos (by norm_num)
  rw [h1, h2, roundNat_two_pow_succ]
  norm_num

theorem jsAdd_zero_one : jsAdd 0 1 = 1 :=
  jsAdd_one_exact 0 (by norm_num) (by norm_num)

/-- On a score between 0 and `2 ^ 53` the increment stays in that range and
never goes down. -/
theorem jsAdd_one_range (n : ℤ) (hlo : 0 ≤ n) (hhi : n ≤ 2 ^ 53) :
    n ≤ jsAdd n 1 ∧ jsAdd n 1 ≤ 2 ^ 53 := by
  rcases lt_or_eq_of_le hhi with hlt | heq
  · rw [jsAdd_one_exact n (by omega) hlt]
    omega
  · rw [heq, jsAdd_one_saturated]
    omega

/-- An event leaves the score as it is, resets it to 0, or increments it. -/
theorem step_score_cases (ev : Event) (s : State) :
    (step ev s).score = s.score ∨ (step ev s).score = 0 ∨
      (step ev s).score = jsAdd s.score 1 := by
  have hstart : ∀ g t, (startGame g t).score = t.score ∨ (startGame g t).score = 0 := by
    intro g t
    cases ht : t.gameStarted
    · right; exact (startGame_of_not_started g t ht).2.2.1
    · left; simp [startGame, ht]
  have hend : ∀ t, (endGame t).score = t.score := by
    intro t
    unfold endGame
    split <;> rfl
  cases ev with
  | keyDown e g =>
    show (handleSpaceKey e g s).score = _ ∨ (handleSpaceKey e g s).score = _ ∨
      (handleSpaceKey e g s).score = _
    unfold handleSpaceKey
    split
    · split
      · rcases hstart g s with h | h
        · exact Or.inl h
        · exact Or.inr (Or.inl h)
      · split
        · exact Or.inl rfl
        · exact Or.inl rfl
    · exact Or.inl rfl
  | pointerDown g =>
    show (pointerdown g s).score = _ ∨ (pointerdown g s).score = _ ∨
      (pointerdown g s).score = _
    unfold pointerdown
    split
    · rcases hstart g s with h | h
      · exact Or.inl h
      · exact Or.inr (Or.inl h)
    · split
      · exact Or.inr (Or.inl rfl)
      · exact Or.inl rfl
  | tick j sn g =>
    show (update j sn g s).score = _ ∨ (update j sn g s).score = _ ∨
      (update j sn g s).score = _
    unfold update
    split
    · split
      · rcases hstart g { s with bird := { s.bird with y := s.bird.y + sn * (15 / 100) } }
          with h | h
        · exact Or.inl h
        · exact Or.inr (Or.inl h)
      · exact Or.inl rfl
    · split
      · exact Or.inl rfl
      · left
        cases j <;> rfl
  | timer id g =>
    left
    show (timerCallback id g s).score = _
    unfold timerCallback
    split
    · exact (spawnPipePair_flags g s).2.2.1
    · rfl
  | groundCollision => exact Or.inl (hend s)
  | pipeOverlap =>
    left
    show (if s.pipes.isEmpty then s else endGame s).score = _
    split
    · rfl
    · exact hend s
  | zoneOverlap pair =>
    show (overlapZone pair s).score = _ ∨ (overlapZone pair s).score = _ ∨
      (overlapZone pair s).score = _
    unfold overlapZone
    split
    · exact Or.inr (Or.inr rfl)
    · exact Or.inl rfl
  | physics dt y vy => exact Or.inl rfl

/-- In every reachable state the score lies between 0 and `2 ^ 53`. -/
theorem score_range_of_reachable (s : State) (h : Reachable s) :
    0 ≤ s.score ∧ s.score ≤ 2 ^ 53 := by
  induction h with
  | init => exact ⟨le_refl _, by simp [initial]⟩
  | next ev s _ ih =>
    rcases step_score_cases ev s with h | h | h
    · rw [h]; exact ih
    · rw [h]; exact ⟨le_refl _, by norm_num⟩
    · rw [h]
      have hr := jsAdd_one_range s.score ih.1 ih.2
      exact ⟨le_trans ih.1 hr.1, hr.2⟩

/-- A timer callback in a game that is not over adds a zone that is live, and
leaves the score, the flags and the clock as they were. -/
theorem timerCallback_adds_zone (g : ℤ) (s : State) (ho : s.gameOver = false)
    (ht : timerActive 0 s = true) :
    zoneLive s.nextId (step (Event.timer 0 g) s) = true ∧
    (step (Event.timer 0 g) s).score = s.score ∧
    (step (Event.timer 0 g) s).gameStarted = s.gameStarted ∧
    (step (Event.timer 0 g) s).gameOver = false ∧
    timerActive 0 (step (Event.timer 0 g) s) = true := by
  have he : step (Event.timer 0 g) s = spawnPipePair g s := by
    show timerCallback 0 g s = _
    simp [timerCallback, ht]
  have hf := spawnPipePair_flags g s
  rw [he]
  refine ⟨?_, hf.2.2.1, hf.1, by rw [hf.2.1, ho], ?_⟩
  · simp [zoneLive, spawnPipePair, ho, scoreZone]
  · unfold timerActive
    rw [hf.2.2.2.1]
    exact ht

/-- Every score from 0 to `2 ^ 53` is the score of a reachable Playing state
whose spawn timer is running: each further point is one timer callback and one
overlap with the zone it spawned. -/
theorem score_reachable (n : ℕ) (hn : n ≤ 2 ^ 53) :
    ∃ s, Reachable s ∧ s.gameStarted = true ∧ s.gameOver = false ∧ s.score = (n : ℤ) ∧
      timerActive 0 s = true := by
  induction n with
  | zero =>
    refine ⟨step (Event.pointerDown 300) initial,
      Reachable.next _ _ Reachable.init, ?_, ?_, ?_, ?_⟩ <;>
    simp [step, pointerdown, startGame, spawnPipePair, initial, timerActive]
  | succ n ih =>
    obtain ⟨s, hr, hs, ho, hsc, ht⟩ := ih (by omega)
    obtain ⟨hl, h1, h2, h3, h4⟩ := timerCallback_adds_zone 300 s ho ht
    refine ⟨step (Event.zoneOverlap s.nextId) (step (Event.timer 0 300) s),
      Reachable.next _ _ (Reachable.next _ _ hr), ?_, ?_, ?_, ?_⟩
    · show (overlapZone s.nextId _).gameStarted = true
      simp only [overlapZone, hl, if_true, zoneHandler]
      rw [h2, hs]
    · show (overlapZone s.nextId _).gameOver = false
      simp only [overlapZone, hl, if_true, zoneHandler]
      exact h3
    · show (overlapZone s.nextId _).score = _
      simp only [overlapZone, hl, if_true, zoneHandler]
      rw [h1, hsc, jsAdd_one_exact]
      · push_cast; ring
      · have : (0 : ℤ) ≤ (n : ℤ) := Int.ofNat_nonneg n
        omega
      · have : ((n + 1 : ℕ) : ℤ) ≤ 2 ^ 53 := by exact_mod_cast hn
        push_cast at this
        omega
    · show timerActive 0 (overlapZone s.nextId _) = true
      simp only [overlapZone, hl, if_true, zoneHandler]
      exact h4

/-- A session can reach the score `2 ^ 53` with a live zone, and there the
overlap with that zone leaves the score where it is. -/
theorem saturated_score_reachable :
    ∃ s pair, Reachable s ∧ s.score = 2 ^ 53 ∧ zoneLive pair s = true ∧
      (overlapZone pair s).score = s.score := by
  obtain ⟨s, hr, _, ho, hsc, ht⟩ := score_reachable (2 ^ 53) (le_refl _)
  obtain ⟨hl, h1, _, _, _⟩ := timerCallback_adds_zone 300 s ho ht
  have hsc' : (step (Event.timer 0 300) s).score = 2 ^ 53 := by
    rw [h1, hsc]; norm_num
  refine ⟨step (Event.timer 0 300) s, s.nextId, Reachable.next _ _ hr, hsc', hl, ?_⟩
  simp only [overlapZone, hl, if_true, zoneHandler]
  rw [hsc']
  exact jsAdd_one_saturated

/-! ## The session invariant -/

theorem inv_initial : Inv initial :=
  ⟨le_refl _, fun _ => ⟨rfl, rfl, rfl, rfl⟩, fun _ => rfl, fun t ht => by simp [initial] at ht⟩

theorem inv_spawnPipePair (g : ℤ) (s : State) (h : Inv s) (hs : s.gameStarted = true) :
    Inv (spawnPipePair g s) := by
  have hf := spawnPipePair_flags g s
  refine ⟨?_, ?_, ?_, ?_⟩
  · rw [hf.2.2.1]; exact h.score_nonneg
  · rw [hf.1, hs]; intro hc; cases hc
  · rw [hf.2.1, hf.2.2.2.1]; exact h.over
  · rw [hf.2.2.2.1, hf.2.2.2.2.1]; exact h.handle

theorem inv_startGame (g : ℤ) (s : State) (h : Inv s) : Inv (startGame g s) := by
  cases hs : s.gameStarted
  · have hc : s.clock = [] := (h.idle hs).2.2.1
    have hf := startGame_of_not_started g s hs
    refine ⟨?_, ?_, ?_, ?_⟩
    · rw [hf.2.2.1]
    · rw [hf.1]; intro hc; cases hc
    · rw [hf.2.1]; intro hc; cases hc
    · rw [hf.2.2.2.2, hf.2.2.2.1, hc]
      intro t ht
      simp at ht
      rw [ht]
  · simpa [startGame, hs] using h

theorem inv_flap (s : State) (h : Inv s) : Inv (flap s) :=
  ⟨h.score_nonneg, h.idle, h.over, h.handle⟩

theorem removePipeTimer_eq_nil (s : State) (h : Inv s) : removePipeTimer s = [] := by
  unfold removePipeTimer
  cases hp : s.pipeTimer with
  | none =>
    cases hc : s.clock with
    | nil => rfl
    | cons t ts =>
      have := h.handle t (by simp [hc])
      rw [hp] at this
      cases this
  | some id =>
    simp only [List.filter_eq_nil_iff]
    intro t ht
    have := h.handle t ht
    rw [hp] at this
    simp only [Option.some.injEq] at this
    simp [this]

theorem inv_endGame (s : State) (h : Inv s) : Inv (endGame s) := by
  unfold endGame
  cases ho : s.gameOver
  · simp only [Bool.false_eq_true, if_false]
    refine ⟨h.score_nonneg, ?_, ?_, ?_⟩
    · intro hs
      have hi := h.idle hs
      exact ⟨hi.1, hi.2.1, removePipeTimer_eq_nil s h, by simp [hi.2.2.2]⟩
    · intro _
      exact removePipeTimer_eq_nil s h
    · intro t ht
      simp [removePipeTimer_eq_nil s h] at ht
  · simpa using h

theorem inv_restart (s : State) (h : Inv s) (ho : s.gameOver = true) : Inv (restart s) :=
  ⟨le_refl _, fun _ => ⟨rfl, rfl, h.over ho, rfl⟩, fun _ => h.over ho, h.handle⟩

theorem inv_step (ev : Event) (s : State) (h : Inv s) : Inv (step ev s) := by
  cases ev with
  | keyDown e g =>
    show Inv (handleSpaceKey e g s)
    unfold handleSpaceKey
    split
    · split
      · exact inv_startGame g s h
      · split
        · exact inv_flap s h
        · exact h
    · exact h
  | pointerDown g =>
    show Inv (pointerdown g s)
    unfold pointerdown
    split
    · exact inv_startGame g s h
    · split
      · exact inv_restart s h (by assumption)
      · exact h
  | tick j sn g =>
    show Inv (update j sn g s)
    unfold update
    have hbob : Inv { s with bird := { s.bird with y := s.bird.y + sn * (15 / 100) } } :=
      ⟨h.score_nonneg, h.idle, h.over, h.handle⟩
    split
    · split
      · exact inv_startGame g _ hbob
      · exact hbob
    · split
      · exact h
      · rename_i hs _
        have hs' : s.gameStarted = true := by simpa using hs
        cases j
        · refine ⟨h.score_nonneg, ?_, h.over, h.handle⟩
          intro hc
          simp [hs'] at hc
        · refine ⟨h.score_nonneg, ?_, h.over, h.handle⟩
          intro hc
          simp [flap, hs'] at hc
  | timer id g =>
    show Inv (timerCallback id g s)
    unfold timerCallback
    split
    · rename_i hact
      apply inv_spawnPipePair g s h
      cases hs : s.gameStarted
      · simp [timerActive, (h.idle hs).2.2.1] at hact
      · rfl
    · exact h
  | groundCollision => exact inv_endGame s h
  | pipeOverlap =>
    show Inv (if s.pipes.isEmpty then s else endGame s)
    split
    · exact h
    · exact inv_endGame s h
  | zoneOverlap pair =>
    show Inv (overlapZone pair s)
    unfold overlapZone
    split
    · rename_i hl
      refine ⟨?_, ?_, h.over, h.handle⟩
      · have := h.score_nonneg
        show 0 ≤ jsAdd s.score 1
        exact roundDouble_nonneg _ (by omega)
      · intro hs
        have hs' : s.gameStarted = false := hs
        simp [zoneLive, (h.idle hs').2.1] at hl
    · exact h
  | physics dt y vy =>
    refine ⟨h.score_nonneg, ?_, h.over, h.handle⟩
    intro hs
    have hi := h.idle hs
    exact ⟨hi.1, by simp [step, physicsStep, hi.2.1], hi.2.2.1, by simp [step, physicsStep, hi.2.2.2]⟩

theorem inv_of_reachable (s : State) (h : Reachable s) : Inv s := by
  induction h with
  | init => exact inv_initial
  | next ev s _ ih => exact inv_step ev s ih

/-- In Playing no event lowers the score. -/
theorem score_le_step (ev : Event) (s : State) (hs : s.gameStarted = true)
    (ho : s.gameOver = false) (hlo : 0 ≤ s.score) (hhi : s.score ≤ 2 ^ 53) :
    s.score ≤ (step ev s).score := by
  cases ev with
  | keyDown e g =>
    show s.score ≤ (handleSpaceKey e g s).score
    unfold handleSpaceKey
    split <;> simp [hs, ho, flap]
  | pointerDown g =>
    show s.score ≤ (pointerdown g s).score
    simp [pointerdown, hs, ho]
  | tick j sn g =>
    show s.score ≤ (update j sn g s).score
    cases j <;> simp [update, hs, ho, flap]
  | timer id g =>
    show s.score ≤ (timerCallback id g s).score
    unfold timerCallback
    split
    · rw [(spawnPipePair_flags g s).2.2.1]
    · exact le_refl _
  | groundCollision =>
    show s.score ≤ (endGame s).score
    simp [endGame, ho]
  | pipeOverlap =>
    show s.score ≤ (if s.pipes.isEmpty then s else endGame s).score
    split <;> simp [endGame, ho]
  | zoneOverlap pair =>
    show s.score ≤ (overlapZone pair s).score
    unfold overlapZone
    split
    · exact (jsAdd_one_range s.score hlo hhi).1
    · exact le_refl _
  | physics dt y vy => exact le_refl _

/-! ## What the clean-up loop of `update` does keep and remove -/

theorem destroyOffscreen_sublist (n k : ℕ) (arr : List Pipe) :
    (destroyOffscreen n k arr).Sublist arr := by
  induction n generalizing k arr with
  | zero => exact List.Sublist.refl _
  | succ n ih =>
    unfold destroyOffscreen
    split
    · exact ih _ _
    · split
      · exact (ih _ _).trans (List.eraseIdx_sublist _ _)
      · exact ih _ _

/-- A pipe that has not passed the threshold survives the loop. -/
theorem destroyOffscreen_keeps (n k : ℕ) (arr : List Pipe) (p : Pipe) (hp : p ∈ arr)
    (hx : -120 ≤ p.x) : p ∈ destroyOffscreen n k arr := by
  induction n generalizing k arr with
  | zero => exact hp
  | succ n ih =>
    unfold destroyOffscreen
    split
    · exact ih _ _ hp
    · rename_i q hq
      split
      · rename_i hlt
        apply ih
        rw [List.mem_eraseIdx_iff_getElem?]
        obtain ⟨i, hi⟩ := List.mem_iff_getElem?.1 hp
        refine ⟨i, ?_, hi⟩
        intro hik
        subst hik
        rw [List.get?_eq_getElem?] at hq
        rw [hq] at hi
        cases hi
        exact absurd hlt (not_lt.2 hx)
      · exact ih _ _ hp

/-- One tick in Playing removes no pipe with `x ≥ -120`, removes pipes only,
and leaves every pipe it keeps as it was. -/
theorem update_pipes_playing (j : Bool) (sn : ℚ) (g : ℤ) (s : State)
    (hs : s.gameStarted = true) (ho : s.gameOver = false) :
    (update j sn g s).pipes.Sublist s.pipes ∧
    ∀ p ∈ s.pipes, -120 ≤ p.x → p ∈ (update j sn g s).pipes := by
  have hp : (update j sn g s).pipes = destroyOffscreen s.pipes.length 0 s.pipes := by
    cases j <;> simp [update, hs, ho, flap]
  rw [hp]
  exact ⟨destroyOffscreen_sublist _ _ _, fun p hp hx => destroyOffscreen_keeps _ _ _ p hp hx⟩

/-! ## The two input paths of a flap -/

/-- In Playing the window listener flaps on every key-down of the space bar,
whatever the `autoRepeat` flag of the event. -/
theorem handleSpaceKey_playing (e : KeyEvent) (g : ℤ) (s : State)
    (hs : s.gameStarted = true) (ho : s.gameOver = false)
    (hk : e.code = "Space" ∨ e.keyCode = 32) :
    handleSpaceKey e g s = flap s := by
  simp [handleSpaceKey, hk, hs, ho]

/-- In Playing a tick changes the velocity of the bird only when `JustDown`
reports a fresh press. -/
theorem update_velocity_playing (j : Bool) (sn : ℚ) (g : ℤ) (s : State)
    (hs : s.gameStarted = true) (ho : s.gameOver = false) :
    (update j sn g s).bird.velocityY = if j then -320 else s.bird.velocityY := by
  cases j <;> simp [update, hs, ho, flap]

/-! ## Pipes and zones before the end of a game -/

theorem scrolling_spawnPipePair (g : ℤ) (s : State) (h : Scrolling s) :
    Scrolling (spawnPipePair g s) := by
  unfold spawnPipePair
  cases ho : s.gameOver
  · intro _
    obtain ⟨hp, hz⟩ := h ho
    constructor
    · intro p hmem
      simp only [Bool.false_eq_true, if_false, List.mem_append, List.mem_cons,
        List.mem_singleton, List.not_mem_nil, or_false] at hmem
      rcases hmem with hmem | rfl | rfl
      · exact hp p hmem
      · simp [Pipe.velocityX, topPipe, PIPE_SPEED]
      · simp [Pipe.velocityX, bottomPipe, PIPE_SPEED]
    · intro z hmem
      simp only [Bool.false_eq_true, if_false, List.mem_append, List.mem_singleton] at hmem
      rcases hmem with hmem | rfl
      · exact hz z hmem
      · simp [scoreZone, PIPE_SPEED]
  · simpa using h

theorem scrolling_startGame (g : ℤ) (s : State) (hi : Inv s) (h : Scrolling s) :
    Scrolling (startGame g s) := by
  unfold startGame
  cases hs : s.gameStarted
  · simp only [Bool.false_eq_true, if_false]
    apply scrolling_spawnPipePair
    intro _
    have hidle := hi.idle hs
    constructor
    · intro p hp
      have hp' : p ∈ s.pipes := hp
      rw [hidle.2.2.2] at hp'
      cases hp'
    · intro z hz
      have hz' : z ∈ s.zones := hz
      rw [hidle.2.1] at hz'
      cases hz'
  · simpa using h

theorem scrolling_step (ev : Event) (s : State) (hi : Inv s) (h : Scrolling s) :
    Scrolling (step ev s) := by
  cases ev with
  | keyDown e g =>
    show Scrolling (handleSpaceKey e g s)
    unfold handleSpaceKey
    split
    · split
      · exact scrolling_startGame g s hi h
      · split
        · exact h
        · exact h
    · exact h
  | pointerDown g =>
    show Scrolling (pointerdown g s)
    unfold pointerdown
    split
    · exact scrolling_startGame g s hi h
    · split
      · intro _
        exact ⟨fun p hp => (by cases hp), fun z hz => (by cases hz)⟩
      · exact h
  | tick j sn g =>
    show Scrolling (update j sn g s)
    cases hs : s.gameStarted
    · have hbob : Inv { s with bird := { s.bird with y := s.bird.y + sn * (15 / 100) } } :=
        ⟨hi.score_nonneg, hi.idle, hi.over, hi.handle⟩
      have hsc : Scrolling { s with bird := { s.bird with y := s.bird.y + sn * (15 / 100) } } :=
        h
      cases j
      · simpa [update, hs] using hsc
      · simpa [update, hs] using scrolling_startGame g _ hbob hsc
    · cases ho : s.gameOver
      · intro _
        obtain ⟨hp, hz⟩ := h ho
        have hsub := (update_pipes_playing j sn g s hs ho).1
        refine ⟨fun p hmem => hp p (hsub.subset hmem), ?_⟩
        have hzs : (update j sn g s).zones = s.zones := by
          cases j <;> simp [update, hs, ho, flap]
        rw [hzs]
        exact hz
      · intro hc
        simp [update, hs, ho] at hc
  | timer id g =>
    show Scrolling (timerCallback id g s)
    unfold timerCallback
    split
    · exact scrolling_spawnPipePair g s h
    · exact h
  | groundCollision =>
    show Scrolling (endGame s)
    unfold endGame
    cases ho : s.gameOver
    · intro hc
      simp at hc
    · simpa using h
  | pipeOverlap =>
    show Scrolling (if s.pipes.isEmpty then s else endGame s)
    split
    · exact h
    · unfold endGame
      cases ho : s.gameOver
      · intro hc
        simp at hc
      · simpa using h
  | zoneOverlap pair =>
    show Scrolling (overlapZone pair s)
    unfold overlapZone
    split
    · intro ho
      obtain ⟨hp, hz⟩ := h ho
      exact ⟨hp, fun z hmem => hz z (List.mem_of_mem_filter hmem)⟩
    · exact h
  | physics dt y vy =>
    intro ho
    obtain ⟨hp, hz⟩ := h ho
    constructor
    · intro p hmem
      simp only [step, physicsStep, List.mem_map] at hmem
      obtain ⟨q, hq, rfl⟩ := hmem
      exact hp q hq
    · intro z hmem
      simp only [step, physicsStep, List.mem_map] at hmem
      obtain ⟨q, hq, rfl⟩ := hmem
      exact hz q hq

/-- In every reachable state in which `gameOver` is false, every pipe and every
score zone moves at -220, so each zone moves with the pipes of its pair. -/
theorem scrolling_of_reachable (s : State) (h : Reachable s) : Scrolling s := by
  induction h with
  | init => exact fun _ => ⟨fun p hp => (by cases hp), fun z hz => (by cases hz)⟩
  | next ev s hr ih => exact scrolling_step ev s (inv_of_reachable s hr) ih

/-! ## C1: Idle to Playing -/

/-- C1. From every state with `gameStarted = false`, `startGame` yields a
Playing state (`gameStarted = true`, `gameOver = false`) with score 0, bird
velocity (0, 0) and gravity enabled; a looping timer of 1400 ms is added to the
clock and kept in `pipeTimer`; and one spawn is performed: the pipe collection
gains exactly a top and a bottom pipe and exactly one score zone is added. -/
theorem startGame_from_idle (g : ℤ) (s : State) (h : s.gameStarted = false) :
    phase (startGame g s) = Phase.Playing ∧
    (startGame g s).gameStarted = true ∧
    (startGame g s).gameOver = false ∧
    (startGame g s).score = 0 ∧
    (startGame g s).bird.velocityX = 0 ∧
    (startGame g s).bird.velocityY = 0 ∧
    (startGame g s).bird.allowGravity = true ∧
    (startGame g s).pipeTimer = some s.nextId ∧
    (startGame g s).clock = s.clock ++ [{ id := s.nextId, delay := 1400, loop := true }] ∧
    timerActive s.nextId (startGame g s) = true ∧
    (startGame g s).pipes =
      s.pipes ++ [topPipe (s.nextId + 1) g, bottomPipe (s.nextId + 1) g] ∧
    (topPipe (s.nextId + 1) g).originY = 1 ∧
    (bottomPipe (s.nextId + 1) g).originY = 0 ∧
    (startGame g s).zones = s.zones ++ [scoreZone (s.nextId + 1)] := by
  simp [startGame, spawnPipePair, h, phase, timerActive, PIPE_SPAWN_MS, topPipe, bottomPipe]

/-- C1 at the initial state with gap centre 300. -/
theorem startGame_from_idle_witness :
    initial.gameStarted = false ∧
    phase (startGame 300 initial) = Phase.Playing ∧
    (startGame 300 initial).score = 0 ∧
    (startGame 300 initial).pipes.length = 2 ∧
    (startGame 300 initial).zones.length = 1 :=
  have h := startGame_from_idle 300 initial rfl
  ⟨rfl, h.1, h.2.2.2.1, by rw [h.2.2.2.2.2.2.2.2.2.2.1]; rfl,
    by rw [h.2.2.2.2.2.2.2.2.2.2.2.2.2]; rfl⟩

/-! ## C3: a score zone scores once -/

/-- C3 as stated fails at the largest score a double can count to. In the
state that follows the start of a game, with the score at `2 ^ 53`, the zone of
pair 1 is live and the overlap does not increase the score by 1: `score += 1`
rounds back to `2 ^ 53` and the score stays as it was. -/
theorem zone_overlap_at_two_pow_53 :
    zoneLive 1 saturatedSession = true ∧
    saturatedSession.score = 2 ^ 53 ∧
    (overlapZone 1 saturatedSession).score = saturatedSession.score ∧
    (overlapZone 1 saturatedSession).score ≠ saturatedSession.score + 1 := by
  have hl : zoneLive 1 saturatedSession = true := by
    simp [zoneLive, saturatedSession, startGame, spawnPipePair, initial, scoreZone]
  have hs : saturatedSession.score = 2 ^ 53 := rfl
  have ho : (overlapZone 1 saturatedSession).score = 2 ^ 53 := by
    simp only [overlapZone, hl, if_true, zoneHandler, hs]
    exact jsAdd_one_saturated
  refine ⟨hl, hs, ?_, ?_⟩
  · rw [ho, hs]
  · rw [ho, hs]
    norm_num

/-- C3, amended. For every state and every score zone live in it, the bird-zone
overlap destroys that zone (every other zone stays) and sets the score to the
double sum `score + 1`; a second overlap with the same zone changes nothing, so
the zone yields at most one increment. When the score is an integer `n` with
`-2 ^ 53 ≤ n < 2 ^ 53` the overlap increases it by exactly 1, and the two
overlaps together increase it by exactly 1. -/
theorem zone_scores_once (pair : ℕ) (s : State) (h : zoneLive pair s = true) :
    (overlapZone pair s).score = jsAdd s.score 1 ∧
    zoneLive pair (overlapZone pair s) = false ∧
    (overlapZone pair s).zones = s.zones.filter (fun z => decide (z.pair ≠ pair)) ∧
    overlapZone pair (overlapZone pair s) = overlapZone pair s ∧
    (-(2 ^ 53) ≤ s.score → s.score < 2 ^ 53 →
      (overlapZone pair s).score = s.score + 1 ∧
      (overlapZone pair (overlapZone pair s)).score = s.score + 1) := by
  have hdead : zoneLive pair (zoneHandler pair s) = false := by
    simp [zoneLive, zoneHandler, List.any_filter]
  have h1 : overlapZone pair s = zoneHandler pair s := by simp [overlapZone, h]
  have h2 : overlapZone pair (zoneHandler pair s) = zoneHandler pair s := by
    simp [overlapZone, hdead]
  rw [h1, h2]
  refine ⟨rfl, hdead, rfl, rfl, ?_⟩
  intro hlo hhi
  have he : (zoneHandler pair s).score = s.score + 1 := jsAdd_one_exact s.score hlo hhi
  exact ⟨he, he⟩

/-- C3 on the state right after the start of a game, whose only zone belongs to
pair 1 and whose score is 0: the score goes from 0 to 1 and stays 1 at the
second overlap. -/
theorem zone_scores_once_witness :
    zoneLive 1 (startGame 300 initial) = true ∧
    (startGame 300 initial).score = 0 ∧
    (overlapZone 1 (startGame 300 initial)).score = 1 ∧
    zoneLive 1 (overlapZone 1 (startGame 300 initial)) = false ∧
    (overlapZone 1 (overlapZone 1 (startGame 300 initial))).score = 1 :=
  have hl : zoneLive 1 (startGame 300 initial) = true := by
    simp [zoneLive, startGame, spawnPipePair, initial, scoreZone]
  have hs : (startGame 300 initial).score = 0 :=
    (startGame_of_not_started 300 initial rfl).2.2.1
  have h := zone_scores_once 1 (startGame 300 initial) hl
  have hx := h.2.2.2.2 (by rw [hs]; norm_num) (by rw [hs]; norm_num)
  ⟨hl, hs, by rw [hx.1, hs]; rfl, h.2.1, by rw [hx.2, hs]; rfl⟩

/-! ## C5: GameOver to Idle -/

/-- C5. From every GameOver state, `restart` yields a state with no pipe and no
score zone, the bird at (160, 220) with velocity (0, 0), angle 0 and gravity
disabled, score 0, and both flags false, which is phase Idle. -/
theorem restart_from_gameOver (s : State) (h : phase s = Phase.GameOver) :
    (restart s).pipes = [] ∧
    (restart s).zones = [] ∧
    (restart s).bird.x = 160 ∧
    (restart s).bird.y = 220 ∧
    (restart s).bird.velocityX = 0 ∧
    (restart s).bird.velocityY = 0 ∧
    (restart s).bird.angle = 0 ∧
    (restart s).bird.allowGravity = false ∧
    (restart s).score = 0 ∧
    (restart s).gameStarted = false ∧
    (restart s).gameOver = false ∧
    phase (restart s) = Phase.Idle := by
  have _ := h
  simp [restart, phase]

/-- C5 on the GameOver state reached by starting a game and hitting the
ground. -/
theorem restart_from_gameOver_witness :
    phase (endGame (startGame 300 initial)) = Phase.GameOver ∧
    (restart (endGame (startGame 300 initial))).pipes = [] ∧
    (restart (endGame (startGame 300 initial))).zones = [] ∧
    (restart (endGame (startGame 300 initial))).score = 0 ∧
    phase (restart (endGame (startGame 300 initial))) = Phase.Idle :=
  have hp : phase (endGame (startGame 300 initial)) = Phase.GameOver := by
    simp [phase, endGame, startGame, spawnPipePair, initial]
  have h := restart_from_gameOver (endGame (startGame 300 initial)) hp
  ⟨hp, h.1, h.2.1, h.2.2.2.2.2.2.2.2.1, h.2.2.2.2.2.2.2.2.2.2.2⟩

/-! ## C6: geometry of a spawned pair -/

/-- C6. When `gameOver` is false and the gap centre `g` lies in [170, 420],
`spawnPipePair` appends a top pipe anchored by its bottom edge at `g - 85` and
a bottom pipe anchored by its top edge at `g + 85`: the opening is exactly 170
high and lies within [85, 505]; both pipes are at x = 880 = GAME_W + 80 and
move at horizontal velocity -220. -/
theorem spawnPipePair_geometry (g : ℤ) (s : State) (hover : s.gameOver = false)
    (hlo : 170 ≤ g) (hhi : g ≤ 420) :
    ∃ top bottom : Pipe,
      (spawnPipePair g s).pipes = s.pipes ++ [top, bottom] ∧
      top.originY = 1 ∧ top.y = (g : ℚ) - 85 ∧
      bottom.originY = 0 ∧ bottom.y = (g : ℚ) + 85 ∧
      bottom.y - top.y = 170 ∧ 85 ≤ top.y ∧ bottom.y ≤ 505 ∧
      top.x = 880 ∧ bottom.x = 880 ∧ top.x = GAME_W + 80 ∧
      top.velocityX = -220 ∧ bottom.velocityX = -220 := by
  have hlo' : (170 : ℚ) ≤ (g : ℚ) := by exact_mod_cast hlo
  have hhi' : (g : ℚ) ≤ (420 : ℚ) := by exact_mod_cast hhi
  refine ⟨topPipe s.nextId g, bottomPipe s.nextId g, ?_, ?_, ?_, ?_, ?_, ?_, ?_, ?_, ?_, ?_,
    ?_, ?_, ?_⟩
  · simp [spawnPipePair, hover]
  · rfl
  · simp only [topPipe, PIPE_GAP]; norm_num
  · rfl
  · simp only [bottomPipe, PIPE_GAP]; norm_num
  · simp only [topPipe, bottomPipe, PIPE_GAP]; ring
  · simp only [topPipe, PIPE_GAP]; linarith
  · simp only [bottomPipe, PIPE_GAP]; linarith
  · simp only [topPipe, GAME_W]; norm_num
  · simp only [bottomPipe, GAME_W]; norm_num
  · rfl
  · simp [Pipe.velocityX, topPipe, PIPE_SPEED]
  · simp [Pipe.velocityX, bottomPipe, PIPE_SPEED]

/-- C6 at the initial state with gap centre 170, the lowest value of the
range. -/
theorem spawnPipePair_geometry_witness :
    initial.gameOver = false ∧ (170 : ℤ) ≤ 170 ∧ (170 : ℤ) ≤ 420 ∧
    ∃ top bottom : Pipe,
      (spawnPipePair 170 initial).pipes = initial.pipes ++ [top, bottom] ∧
      top.originY = 1 ∧ top.y = ((170 : ℤ) : ℚ) - 85 ∧
      bottom.originY = 0 ∧ bottom.y = ((170 : ℤ) : ℚ) + 85 ∧
      bottom.y - top.y = 170 ∧ 85 ≤ top.y ∧ bottom.y ≤ 505 ∧
      top.x = 880 ∧ bottom.x = 880 ∧ top.x = GAME_W + 80 ∧
      top.velocityX = -220 ∧ bottom.velocityX = -220 :=
  ⟨rfl, by decide, by decide, spawnPipePair_geometry 170 initial rfl (by decide) (by decide)⟩

/-! ## C7: the phase cycle -/

/-- C7. For every state (reachable or not) and every event, the phase after the
step is the phase before it or its immediate successor in the cycle
Idle, Playing, GameOver, Idle. -/
theorem phase_step_cycle (ev : Event) (s : State) :
    phase (step ev s) = phase s ∨ phase (step ev s) = (phase s).succ := by
  have hsp : ∀ g t, phase (spawnPipePair g t) = phase t := by
    intro g t
    have h := spawnPipePair_flags g t
    simp [phase, h.1, h.2.1]
  have hstart : ∀ g t, t.gameStarted = false →
      phase (startGame g t) = (phase t).succ := by
    intro g t ht
    have h := startGame_of_not_started g t ht
    rw [(phase_playing_iff _).2 ⟨h.1, h.2.1⟩, (phase_idle_iff t).2 ht]
    rfl
  have hend : ∀ t, phase (endGame t) = phase t ∨ phase (endGame t) = (phase t).succ := by
    intro t
    unfold endGame phase
    cases hs : t.gameStarted <;> cases ho : t.gameOver <;> simp [Phase.succ, hs, ho]
  cases ev with
  | keyDown e g =>
    show phase (handleSpaceKey e g s) = _ ∨ phase (handleSpaceKey e g s) = _
    unfold handleSpaceKey
    by_cases hk : e.code = "Space" ∨ e.keyCode = 32
    · simp only [hk, if_true]
      cases hs : s.gameStarted
      · right; simpa using hstart g s hs
      · cases ho : s.gameOver <;> simp [flap, phase, hs, ho]
    · simp [hk]
  | pointerDown g =>
    show phase (pointerdown g s) = _ ∨ phase (pointerdown g s) = _
    unfold pointerdown
    cases hs : s.gameStarted
    · right; simpa using hstart g s hs
    · cases ho : s.gameOver
      · simp
      · right; simp [restart, phase, hs, ho, Phase.succ]
  | tick j sn g =>
    show phase (update j sn g s) = _ ∨ phase (update j sn g s) = _
    unfold update
    cases hs : s.gameStarted
    · cases j
      · left; simp [phase, hs]
      · right
        simp only [Bool.not_false, if_true]
        rw [hstart g _ rfl]
        simp [phase, hs]
    · cases ho : s.gameOver
      · left; cases j <;> simp [phase, hs, ho, flap]
      · simp
  | timer id g =>
    show phase (timerCallback id g s) = _ ∨ phase (timerCallback id g s) = _
    unfold timerCallback
    split
    · left; exact hsp g s
    · left; rfl
  | groundCollision => exact hend s
  | pipeOverlap =>
    show phase (if s.pipes.isEmpty then s else endGame s) = _ ∨
      phase (if s.pipes.isEmpty then s else endGame s) = _
    split
    · left; rfl
    · exact hend s
  | zoneOverlap pair =>
    left
    show phase (overlapZone pair s) = _
    unfold overlapZone
    split <;> simp [zoneHandler, phase]
  | physics dt y vy =>
    left
    simp [step, physicsStep, phase]

/-! ## C2: Playing to GameOver -/

/-- C2. From every Playing state a bird-ground collision, and a bird-pipe
overlap when the group has a pipe, run `endGame`, which yields a GameOver state
where the bird has velocity (0, 0); the pipe collection holds the same pipes in
the same order, each one unchanged except that the horizontal velocity of its
body is now 0 (a pipe keeps its body), so every pipe has horizontal velocity 0;
and the spawn timer is cancelled: the timer `pipeTimer` refers to has left the
clock, and in a reachable state the clock holds no timer at all. -/
theorem endGame_from_playing (s : State) (h : phase s = Phase.Playing) :
    step Event.groundCollision s = endGame s ∧
    (s.pipes ≠ [] → step Event.pipeOverlap s = endGame s) ∧
    phase (endGame s) = Phase.GameOver ∧
    (endGame s).bird.velocityX = 0 ∧
    (endGame s).bird.velocityY = 0 ∧
    (endGame s).pipes.length = s.pipes.length ∧
    (endGame s).pipes =
      s.pipes.map (fun p =>
        { p with body := p.body.map (fun b => { b with velocityX := 0 }) }) ∧
    (∀ p ∈ (endGame s).pipes, ∀ b, p.body = some b → b.velocityX = 0) ∧
    (∀ p ∈ (endGame s).pipes, p.velocityX = 0) ∧
    (∀ t ∈ (endGame s).clock, s.pipeTimer ≠ some t.id) ∧
    (Reachable s → (endGame s).clock = []) := by
  obtain ⟨hs, ho⟩ := (phase_playing_iff s).1 h
  have he : endGame s =
      { s with
        gameOver := true
        bird := { s.bird with tint := some 0xff4444, velocityX := 0, velocityY := 0 }
        pipes := s.pipes.map freezePipe
        clock := removePipeTimer s
        messageText := "Game Over!\nClick to restart"
        messageVisible := true } := by
    simp [endGame, ho]
  have hfreeze : ∀ q : Pipe,
      freezePipe q = { q with body := q.body.map (fun b => { b with velocityX := 0 }) } := by
    intro q
    unfold freezePipe
    cases hb : q.body with
    | none => cases q; simp_all
    | some b => simp
  refine ⟨rfl, ?_, ?_, ?_, ?_, ?_, ?_, ?_, ?_, ?_, ?_⟩
  · intro hne
    show (if s.pipes.isEmpty then s else endGame s) = endGame s
    simp [hne]
  · rw [he]; simp [phase, hs]
  · rw [he]
  · rw [he]
  · rw [he]; simp
  · rw [he]
    show s.pipes.map freezePipe = _
    exact List.map_congr_left (fun q _ => hfreeze q)
  · rw [he]
    intro p hp b hb
    have hp' : p ∈ s.pipes.map freezePipe := hp
    simp only [List.mem_map] at hp'
    obtain ⟨q, _, rfl⟩ := hp'
    rw [hfreeze q] at hb
    cases hq : q.body with
    | none => simp [hq] at hb
    | some c =>
      simp only [hq, Option.map_some', Option.some.injEq] at hb
      rw [← hb]
  · rw [he]
    intro p hp
    simp only [List.mem_map] at hp
    obtain ⟨q, _, rfl⟩ := hp
    unfold freezePipe Pipe.velocityX
    cases hb : q.body <;> simp [hb]
  · rw [he]
    intro t ht
    show s.pipeTimer ≠ some t.id
    have ht' : t ∈ removePipeTimer s := ht
    unfold removePipeTimer at ht'
    cases hp : s.pipeTimer with
    | none => simp
    | some id =>
      rw [hp] at ht'
      simp only [List.mem_filter, decide_eq_true_eq] at ht'
      intro hc
      exact ht'.2 (Option.some.inj hc).symm
  · intro hr
    rw [he]
    exact removePipeTimer_eq_nil s (inv_of_reachable s hr)

/-- C2 on the Playing state right after the start of a game: after the
collision the top and the bottom pipe are where they were, each with its body,
now at horizontal velocity 0, and the clock is empty. -/
theorem endGame_from_playing_witness :
    phase (startGame 300 initial) = Phase.Playing ∧
    phase (endGame (startGame 300 initial)) = Phase.GameOver ∧
    (endGame (startGame 300 initial)).pipes =
      [{ topPipe 1 300 with
          body := some { velocityX := 0, allowGravity := false, immovable := true } },
       { bottomPipe 1 300 with
          body := some { velocityX := 0, allowGravity := false, immovable := true } }] ∧
    (∀ p ∈ (endGame (startGame 300 initial)).pipes, p.velocityX = 0) ∧
    (endGame (startGame 300 initial)).clock = [] :=
  have hp : phase (startGame 300 initial) = Phase.Playing :=
    (phase_playing_iff _).2
      ⟨(startGame_of_not_started 300 initial rfl).1, (startGame_of_not_started 300 initial rfl).2.1⟩
  have h := endGame_from_playing (startGame 300 initial) hp
  ⟨hp, h.2.2.1,
    by rw [h.2.2.2.2.2.2.1]; simp [startGame, spawnPipePair, initial, topPipe, bottomPipe],
    h.2.2.2.2.2.2.2.2.1,
    h.2.2.2.2.2.2.2.2.2.2 (Reachable.next (Event.pointerDown 300) initial Reachable.init)⟩

/-! ## C4: the score -/

/-- C4. In every reachable state the score is a non-negative integer; it is 0
whenever the phase is Idle; every step that starts and ends in Playing leaves
it unchanged or larger; and the restart from GameOver (a pointer-down) leads to
Idle with score 0. -/
theorem score_invariant (s : State) (h : Reachable s) :
    0 ≤ s.score ∧
    (phase s = Phase.Idle → s.score = 0) ∧
    (∀ ev, phase s = Phase.Playing → phase (step ev s) = Phase.Playing →
      s.score ≤ (step ev s).score) ∧
    (∀ g, phase s = Phase.GameOver →
      phase (step (Event.pointerDown g) s) = Phase.Idle ∧
      (step (Event.pointerDown g) s).score = 0) := by
  have hinv := inv_of_reachable s h
  refine ⟨hinv.score_nonneg, ?_, ?_, ?_⟩
  · intro hp
    exact (hinv.idle ((phase_idle_iff s).1 hp)).1
  · intro ev hp _
    obtain ⟨hs, ho⟩ := (phase_playing_iff s).1 hp
    exact score_le_step ev s hs ho hinv.score_nonneg (score_range_of_reachable s h).2
  · intro g hp
    obtain ⟨hs, ho⟩ := (phase_gameOver_iff s).1 hp
    show phase (pointerdown g s) = Phase.Idle ∧ (pointerdown g s).score = 0
    simp [pointerdown, hs, ho, restart, phase]

/-- C4 on the state reached by starting a game and passing the first score
zone: the score there is 1, which is not negative. -/
theorem score_invariant_witness :
    Reachable (run [Event.pointerDown 300, Event.zoneOverlap 1] initial) ∧
    (0 : ℤ) ≤ (run [Event.pointerDown 300, Event.zoneOverlap 1] initial).score ∧
    (run [Event.pointerDown 300, Event.zoneOverlap 1] initial).score = 1 :=
  have hr : Reachable (run [Event.pointerDown 300, Event.zoneOverlap 1] initial) :=
    Reachable.next (Event.zoneOverlap 1) _
      (Reachable.next (Event.pointerDown 300) initial Reachable.init)
  ⟨hr, (score_invariant _ hr).1, by
    simp [run, step, pointerdown, startGame, spawnPipePair, initial, overlapZone, zoneLive,
      zoneHandler, scoreZone, jsAdd_zero_one]⟩

/-! ## C8: zones after the end of a game -/

/-- C8, evaluation of the code. After a game is started and the bird hits the
ground, `endGame` has set the velocity of both pipes of pair 1 to 0 but has
left the score zone of the same pair at -220: the zone no longer moves with its
pipes, and an overlap of the bird with it still raises the score, from 0 to 1,
in GameOver. -/
theorem endGame_leaves_zone_moving :
    Reachable crashedSession ∧
    phase crashedSession = Phase.GameOver ∧
    crashedSession.pipes.map (fun p => (p.pair, p.velocityX)) = [(1, 0), (1, 0)] ∧
    crashedSession.zones.map (fun z => (z.pair, z.velocityX)) = [(1, -220)] ∧
    crashedSession.score = 0 ∧
    (step (Event.zoneOverlap 1) crashedSession).score = 1 := by
  refine ⟨Reachable.next Event.groundCollision _
    (Reachable.next (Event.pointerDown 300) initial Reachable.init), ?_, ?_, ?_, ?_, ?_⟩
  · simp [crashedSession, run, step, pointerdown, startGame, spawnPipePair, endGame, initial,
      phase]
  · simp [crashedSession, run, step, pointerdown, startGame, spawnPipePair, endGame, initial,
      freezePipe, topPipe, bottomPipe, Pipe.velocityX]
  · simp [crashedSession, run, step, pointerdown, startGame, spawnPipePair, endGame, initial,
      scoreZone, PIPE_SPEED]
  · simp [crashedSession, run, step, pointerdown, startGame, spawnPipePair, endGame, initial]
  · simp [crashedSession, run, step, pointerdown, startGame, spawnPipePair, endGame, initial,
      overlapZone, zoneLive, zoneHandler, scoreZone, jsAdd_zero_one]

/-! ## C9: key-down events of a held key -/

/-- C9, evaluation of the code. While Playing, with the bird at vertical
velocity -311 after a flap, a key-down event of the space bar that the browser
generated by auto-repeat goes through `handleSpaceKey` to `flap` like any
other: the vertical velocity is set to -320 again. -/
theorem handleSpaceKey_flaps_on_autoRepeat :
    Reachable heldKeySession ∧
    phase heldKeySession = Phase.Playing ∧
    heldKeySession.bird.velocityY = -311 ∧
    (spaceDown true).autoRepeat = true ∧
    (step (Event.keyDown (spaceDown true) 300) heldKeySession).bird.velocityY = -320 := by
  refine ⟨Reachable.next (Event.physics (1 / 100) (21689 / 100) (-311)) _
    (Reachable.next (Event.keyDown (spaceDown false) 300) _
      (Reachable.next (Event.pointerDown 300) initial Reachable.init)), ?_, ?_, rfl, ?_⟩
  · simp [heldKeySession, run, step, pointerdown, handleSpaceKey, spaceDown, startGame,
      spawnPipePair, flap, physicsStep, initial, phase]
  · simp [heldKeySession, run, step, pointerdown, handleSpaceKey, spaceDown, startGame,
      spawnPipePair, flap, physicsStep, initial]
  · simp [heldKeySession, run, step, pointerdown, handleSpaceKey, spaceDown, startGame,
      spawnPipePair, flap, physicsStep, initial]

/-! ## C10: off-screen pipes -/

/-- C10, evaluation of the code. With the top and the bottom pipe of one pair
both at x = -220, one `update` tick in Playing destroys the top pipe only: the
bottom pipe, which moved to index 0 of the array when the top pipe was removed,
is not visited and stays in the collection with x < -120. -/
theorem update_skips_pipe_after_destroyed :
    Reachable offscreenSession ∧
    phase offscreenSession = Phase.Playing ∧
    offscreenSession.pipes.map (fun p => (p.originY, p.x)) = [(1, -220), (0, -220)] ∧
    (step (Event.tick false 0 300) offscreenSession).pipes.map (fun p => (p.originY, p.x)) =
      [(0, -220)] := by
  have hpipes : offscreenSession.pipes =
      [{ topPipe 1 300 with x := -220 }, { bottomPipe 1 300 with x := -220 }] := by
    simp [offscreenSession, run, step, pointerdown, startGame, spawnPipePair, physicsStep,
      initial, topPipe, bottomPipe, Pipe.velocityX, GAME_W, PIPE_SPEED]
    norm_num
  have hflags : offscreenSession.gameStarted = true ∧ offscreenSession.gameOver = false := by
    simp [offscreenSession, run, step, pointerdown, startGame, spawnPipePair, physicsStep,
      initial]
  refine ⟨Reachable.next (Event.physics 5 220 0) _
    (Reachable.next (Event.pointerDown 300) initial Reachable.init), ?_, ?_, ?_⟩
  · exact (phase_playing_iff _).2 hflags
  · rw [hpipes]; simp [topPipe, bottomPipe]
  · show (update false 0 300 offscreenSession).pipes.map (fun p => (p.originY, p.x)) = _
    simp [update, hflags.1, hflags.2, hpipes, destroyOffscreen, topPipe, bottomPipe]
    norm_num

end FlappyBird
